import Mathlib

/-!
# discord-alertmanager: the webhook relay handler

A shallow embedding of `main.go`.  The program is one HTTP handler,
`handleWebhook`, which decodes an Alertmanager batch, renders a Discord embed
from it and posts the embed to a Discord webhook.

Modelling conventions.

* A Go `map[string]string` is a list of key/value entries with pairwise
  distinct keys (`GoMap`).  The order of the list stands for the order in which
  `range` visits the entries, which Go leaves unspecified; a nil map is the
  empty list.
* The strings of the decoded batch are Lean strings: `encoding/json` makes every
  string it decodes valid UTF-8.  Go compares strings byte by byte; on UTF-8 that
  order coincides with the lexicographic order of the code points, which is the
  order used here (`stringLess`).
* The names and values of the query string are byte strings (`Bytes`): after
  percent-decoding they can hold any bytes, so `?pretext=%ff` gives the one byte
  `0xFF`.  The field `Content`, which receives such a value, is a byte string
  too, and `json.Marshal` coerces it to valid UTF-8 (`jsonText`).
* What the handler does to the outside world is recorded in a `Trace`: the
  argument of `w.WriteHeader`, the status stored by `render.Status`, the
  outbound calls handed to `ctxhttp.Do`, and whether the handler panicked.
  `render.Status(r, code)` receives the request only: it stores `code` in the
  context of `r` as a hint for a `render` responder and does not touch the
  `http.ResponseWriter`.
* The library functions whose results the handler branches on or copies
  (`strings.ToUpper`, `http.NewRequest`, `ctxhttp.Do`) are fields of `Lib`.
-/

namespace DiscordAlertmanager

/-! ## Go maps -/

/-- A Go `map[string]string`: entries in iteration order, keys pairwise distinct. -/
structure GoMap where
  entries : List (String × String)
  nodupKeys : (entries.map Prod.fst).Nodup

/-- The nil (or empty) map. -/
def GoMap.empty : GoMap := ⟨[], List.nodup_nil⟩

instance : Inhabited GoMap := ⟨GoMap.empty⟩

/-- The two-result index expression `v, ok := m[k]`: `none` stands for `ok == false`. -/
def GoMap.lookup (m : GoMap) (k : String) : Option String :=
  m.entries.lookup k

/-- The one-result index expression `m[k]`: the zero value `""` for a missing key. -/
def GoMap.index (m : GoMap) (k : String) : String :=
  (m.lookup k).getD ""

/-- The keys of the map, in iteration order. -/
def GoMap.keys (m : GoMap) : List String :=
  m.entries.map Prod.fst

/-! ## Byte strings and UTF-8 -/

/-- A Go string as it is: a sequence of bytes (numbers below 256), not
necessarily valid UTF-8. -/
abbrev Bytes := List Nat

/-- The UTF-8 encoding of a code point. -/
def utf8EncodeChar (c : Nat) : Bytes :=
  if c < 0x80 then [c]
  else if c < 0x800 then [0xC0 + c / 64, 0x80 + c % 64]
  else if c < 0x10000 then [0xE0 + c / 4096, 0x80 + c / 64 % 64, 0x80 + c % 64]
  else [0xF0 + c / 262144, 0x80 + c / 4096 % 64, 0x80 + c / 64 % 64, 0x80 + c % 64]

/-- The bytes of a text: the UTF-8 encoding of its characters. -/
def utf8Bytes (s : String) : Bytes :=
  s.data.flatMap (fun c => utf8EncodeChar c.toNat)

/-- Whether `b` is a byte between `lo` and `hi`. -/
def inRange (lo hi b : Nat) : Bool :=
  decide (lo ≤ b) && decide (b ≤ hi)

/-- The function `utf8.DecodeRuneInString`: the code point at the head of the
bytes and the bytes after it, or `none` where Go returns `RuneError` with width 1
(a byte that does not start a well-formed sequence, or no byte at all). -/
def decodeRune : Bytes → Option (Nat × Bytes)
  | [] => none
  | b0 :: rest =>
    if b0 < 0x80 then some (b0, rest)
    else if inRange 0xC2 0xDF b0 then
      match rest with
      | b1 :: rest1 =>
        if inRange 0x80 0xBF b1 then some ((b0 - 0xC0) * 64 + (b1 - 0x80), rest1) else none
      | _ => none
    else if inRange 0xE0 0xEF b0 then
      match rest with
      | b1 :: b2 :: rest2 =>
        if inRange (if b0 = 0xE0 then 0xA0 else 0x80) (if b0 = 0xED then 0x9F else 0xBF) b1
            && inRange 0x80 0xBF b2 then
          some ((b0 - 0xE0) * 4096 + (b1 - 0x80) * 64 + (b2 - 0x80), rest2)
        else none
      | _ => none
    else if inRange 0xF0 0xF4 b0 then
      match rest with
      | b1 :: b2 :: b3 :: rest3 =>
        if inRange (if b0 = 0xF0 then 0x90 else 0x80) (if b0 = 0xF4 then 0x8F else 0xBF) b1
            && inRange 0x80 0xBF b2 && inRange 0x80 0xBF b3 then
          some ((b0 - 0xF0) * 262144 + (b1 - 0x80) * 4096 + (b2 - 0x80) * 64 + (b3 - 0x80),
            rest3)
        else none
      | _ => none
    else none

/-- The loop of `encoding/json` over the bytes of a string: a well-formed
sequence gives its character, any other byte gives U+FFFD and the loop moves on
by one byte.  The first argument bounds the number of rounds. -/
def jsonCharsAux : Nat → Bytes → List Char
  | 0, _ => []
  | _ + 1, [] => []
  | fuel + 1, b :: bs =>
    match decodeRune (b :: bs) with
    | some (c, rest) => Char.ofNat c :: jsonCharsAux fuel rest
    | none => Char.ofNat 0xFFFD :: jsonCharsAux fuel bs

/-- The text `json.Marshal` writes for a Go string, as a JSON parser reads it
back: the string itself where it is valid UTF-8, with U+FFFD in place of every
byte that is not part of a well-formed sequence. -/
def jsonText (s : Bytes) : String :=
  ⟨jsonCharsAux s.length s⟩

/-! ## The wire types of `main.go` -/

/-- The Go type `Alert`. -/
structure Alert where
  Labels : GoMap := GoMap.empty
  Annotations : GoMap := GoMap.empty
  StartsAt : String := ""
  EndsAt : String := ""
  GeneratorURL : String := ""

/-- The Go type `AlertMessage`. -/
structure AlertMessage where
  Version : String := ""
  GroupKey : String := ""
  Status : String := ""
  Receiver : String := ""
  GroupLabels : GoMap := GoMap.empty
  CommonLabels : GoMap := GoMap.empty
  CommonAnnotations : GoMap := GoMap.empty
  ExternalURL : String := ""
  Alerts : List Alert := []

/-- The Go type `RichEmbed`. -/
structure RichEmbed where
  Title : String
  Description : String
  Color : Int
  deriving DecidableEq, Repr

/-- The Go type `DiscordWebhook`. -/
structure DiscordWebhook where
  Content : Bytes
  Embeds : List RichEmbed
  deriving DecidableEq, Repr

/-! ## JSON values produced by `json.Marshal` -/

/-- A JSON value, as a JSON parser reads the encoded text back; an object keeps
its members in the order they are written. -/
inductive Json where
  | null : Json
  | str : String → Json
  | num : Int → Json
  | arr : List Json → Json
  | obj : List (String × Json) → Json
  deriving Repr

/-- The member `k` of a JSON object, `none` when the value is not an object or
has no such member. -/
def Json.member (j : Json) (k : String) : Option Json :=
  match j with
  | .obj ms => ms.lookup k
  | _ => none

/-- The encoding of a `RichEmbed` according to its field tags
`json:"title"`, `json:"description"`, `json:"color"` (none has `omitempty`).
`Title` and `Description` are valid UTF-8, which `json.Marshal` writes as it is. -/
def RichEmbed.toJson (e : RichEmbed) : Json :=
  .obj [("title", .str e.Title), ("description", .str e.Description), ("color", .num e.Color)]

/-- The encoding of a `DiscordWebhook` according to its field tags
`json:"content"`, `json:"embeds"` (none has `omitempty`).  The string `Content`
is coerced to valid UTF-8. -/
def DiscordWebhook.toJson (p : DiscordWebhook) : Json :=
  .obj [("content", .str (jsonText p.Content)), ("embeds", .arr (p.Embeds.map RichEmbed.toJson))]

/-- The call `json.Marshal(payload)`.  The payload holds only strings, an int and
a non-nil slice of structs, for which `json.Marshal` has no error result; the
error result is kept in the type because the handler tests it. -/
def jsonMarshal (p : DiscordWebhook) : Except String Json :=
  .ok p.toJson

/-! ## String order and `sort.Strings` -/

/-- Strict lexicographic order on lists of numbers. -/
def lexLt : List Nat → List Nat → Bool
  | _, [] => false
  | [], _ :: _ => true
  | a :: as, b :: bs => decide (a < b) || (decide (a = b) && lexLt as bs)

/-- The code points of a string. -/
def codePoints (s : String) : List Nat :=
  s.data.map Char.toNat

/-- Go's `a < b` on strings. -/
def stringLess (a b : String) : Bool :=
  lexLt (codePoints a) (codePoints b)

/-- Go's `a <= b` on strings, as a relation. -/
def stringLe (a b : String) : Prop :=
  stringLess b a = false

instance : DecidableRel stringLe := fun a b =>
  inferInstanceAs (Decidable (stringLess b a = false))

/-- The call `sort.Strings(labels)`: the slice put in ascending order.  Equal
strings cannot be told apart, so the result does not depend on the sorting
algorithm. -/
def sortStrings (labels : List String) : List String :=
  labels.insertionSort stringLe

/-! ## The request, the library and the trace of the handler -/

/-- What the handler reads from the inbound `*http.Request`. -/
structure Request where
  /-- The result of `json.NewDecoder(r.Body).Decode(&body)`: `none` when it
  returns an error, the decoded message otherwise. -/
  body : Option AlertMessage
  /-- The path parameter `chi.URLParam(r, "id")`. -/
  id : String
  /-- The path parameter `chi.URLParam(r, "token")`. -/
  token : String
  /-- The parameters `r.URL.Query()` holds, name and value percent-decoded, in
  the order they are written in the query string. -/
  query : List (Bytes × Bytes)

/-- The call `r.URL.Query().Get(key)`: the first value of `key`, or `""`. -/
def Request.queryGet (r : Request) (key : Bytes) : Bytes :=
  (r.query.lookup key).getD []

/-- An outbound HTTP request as the handler builds it. -/
structure OutboundCall where
  method : String
  url : String
  header : List (String × String)
  body : Json
  deriving Repr

/-- The library functions the handler calls. -/
structure Lib where
  /-- The function `strings.ToUpper`. -/
  ToUpper : String → String
  /-- Whether `http.NewRequest("POST", url, body)` returns a request
  (`true`) or `nil` and an error (`false`). -/
  NewRequest : String → Bool
  /-- The call `ctxhttp.Do(ctx, client, req)`: `none` for an error (a transport
  failure or a cancelled context), otherwise the status code of the response. -/
  Do : OutboundCall → Option Nat

/-- What the handler does, as seen from outside. -/
structure Trace where
  /-- The argument of `w.WriteHeader`, `none` when it is never called. -/
  wroteHeader : Option Nat := none
  /-- The bytes written to `w`. -/
  wroteBody : String := ""
  /-- The status stored in the request context by `render.Status`. -/
  ctxStatus : Option Nat := none
  /-- The local variable `payload`, when the handler gets to build it. -/
  payload : Option DiscordWebhook := none
  /-- The requests handed to `ctxhttp.Do`, in order. -/
  calls : List OutboundCall := []
  /-- Whether the handler panicked with a nil pointer dereference. -/
  panicked : Bool := false

/-- The status code the caller receives.  A handler that returns without calling
`WriteHeader` or `Write` makes `net/http` send 200; a panic is caught by
`middleware.Recoverer`, installed in `main`, which sends 500. -/
def Trace.callerStatus (t : Trace) : Nat :=
  if t.panicked then 500 else t.wroteHeader.getD 200

/-! ## The handler -/

/-- Lines 81-86: the keys of `groupLabels` other than `"alertname"`, appended one
by one in iteration order. -/
def collectLabels (groupLabels : GoMap) : List String :=
  groupLabels.entries.foldl
    (fun labels kv => if kv.1 != "alertname" then labels ++ [kv.1] else labels) []

/-- Lines 88-90: every label replaced by `fmt.Sprintf("%s = %s", k, groupLabels[k])`. -/
def renderLabels (groupLabels : GoMap) (labels : List String) : List String :=
  labels.map (fun k => k ++ " = " ++ groupLabels.index k)

/-- The call `strings.Join(elems, sep)`. -/
def stringsJoin (elems : List String) (sep : String) : String :=
  sep.intercalate elems

/-- Line 92: the title. -/
def buildTitle (lib : Lib) (body : AlertMessage) (alertname : String) (labels : List String) :
    String :=
  "[" ++ lib.ToUpper body.Status ++ ":" ++ toString body.Alerts.length ++ "] " ++ alertname
    ++ " (" ++ stringsJoin labels ", " ++ ")"

/-- Lines 94-100: one line per alert that has a `summary` annotation. -/
def collectDescs (alerts : List Alert) : List String :=
  alerts.foldl
    (fun descs alert =>
      match alert.Annotations.lookup "summary" with
      | some summary => descs ++ ["- " ++ summary]
      | none => descs)
    []

/-- Lines 102-105: the color. -/
def pickColor (status : String) : Int :=
  if status = "resolved" then 0x00FF00 else 0xFF0000

/-- Line 124: the destination URL. -/
def webhookURL (id token : String) : String :=
  "https://discordapp.com/api/webhooks/" ++ id ++ "/" ++ token

/-- The function `handleWebhook`. -/
def handleWebhook (lib : Lib) (r : Request) : Trace :=
  match r.body with
  | none => { wroteHeader := some 400 }
  | some body =>
    match body.GroupLabels.lookup "alertname" with
    | none => { wroteHeader := some 400 }
    | some alertname =>
      let labels := collectLabels body.GroupLabels
      let labels := sortStrings labels
      let labels := renderLabels body.GroupLabels labels
      let title := buildTitle lib body alertname labels
      let descs := collectDescs body.Alerts
      let color := pickColor body.Status
      let embed : RichEmbed :=
        { Title := title, Description := stringsJoin descs "\n", Color := color }
      let payload : DiscordWebhook :=
        { Content := r.queryGet (utf8Bytes "pretext"), Embeds := [embed] }
      match jsonMarshal payload with
      | .error _ => { wroteHeader := some 500, payload := some payload }
      | .ok jsonString =>
        let url := webhookURL r.id r.token
        -- line 126: the error result of http.NewRequest is assigned and not tested;
        -- line 127: req.Header.Set dereferences req, which is nil after an error
        if lib.NewRequest url then
          let req : OutboundCall :=
            { method := "POST", url := url,
              header := [("Content-Type", "application/json")], body := jsonString }
          match lib.Do req with
          | none => { wroteHeader := some 500, payload := some payload, calls := [req] }
          | some statusCode =>
            -- line 137: render.Status stores the code in the request context
            { ctxStatus := some statusCode, payload := some payload, calls := [req] }
        else
          { payload := some payload, panicked := true }

/-! ## A reference library for concrete runs -/

/-- Upper-casing of the ASCII letters, which is what `strings.ToUpper` does on
ASCII input. -/
def asciiUpper (s : String) : String :=
  ⟨s.data.map (fun c => if 97 ≤ c.toNat ∧ c.toNat ≤ 122 then Char.ofNat (c.toNat - 32) else c)⟩

/-- Whether every `%` in the text is followed by two hexadecimal digits. -/
def validEscapes : List Char → Bool
  | [] => true
  | '%' :: a :: b :: rest =>
    (a.isDigit || ('a' ≤ a && a ≤ 'f') || ('A' ≤ a && a ≤ 'F')) &&
    (b.isDigit || ('a' ≤ b && b ≤ 'f') || ('A' ≤ b && b ≤ 'F')) && validEscapes rest
  | '%' :: _ => false
  | _ :: rest => validEscapes rest

/-- The conditions under which `url.Parse`, and with it `http.NewRequest`, accepts
a URL of the shape the handler builds, `https://discordapp.com/api/webhooks/`
followed by the two path parameters: no ASCII control character before the first
`#`, and well-formed percent-escapes in the path (the text before the first `?`
or `#`) and in the fragment (the text after the first `#`). -/
def urlParses (url : String) : Bool :=
  let cs := url.data
  let beforeFrag := cs.takeWhile (fun c => c != '#')
  let frag := (cs.dropWhile (fun c => c != '#')).drop 1
  let path := beforeFrag.takeWhile (fun c => c != '?')
  let noCtl := beforeFrag.all (fun c => !(c.toNat < 32 || c.toNat = 127))
  noCtl && validEscapes path && validEscapes frag

/-- A library in which every dispatch is answered with the given result. -/
def goLib (answer : Option Nat) : Lib :=
  { ToUpper := asciiUpper, NewRequest := urlParses, Do := fun _ => answer }

/-! ## Concrete requests -/

/-- The group labels `alertname: HighCPU, job: api`. -/
def labelsHighCPU : GoMap :=
  ⟨[("alertname", "HighCPU"), ("job", "api")], by decide⟩

/-- The batch of the round-trip scenario: two alerts, the first with a summary. -/
def msgHighCPU (status : String) : AlertMessage :=
  { Status := status, GroupLabels := labelsHighCPU,
    Alerts := [{ Annotations := ⟨[("summary", "cpu at 95%")], by decide⟩ }, {}] }

/-- The request `POST /123/abc` carrying the round-trip batch, with no query string. -/
def reqHighCPU (status : String) : Request :=
  { body := some (msgHighCPU status), id := "123", token := "abc", query := [] }

/-- A request whose body is not JSON. -/
def reqNotJson : Request :=
  { body := none, id := "123", token := "abc", query := [(utf8Bytes "pretext", utf8Bytes "hello")] }

/-- A request whose batch has group labels but no `alertname`. -/
def reqNoAlertname : Request :=
  { body := some { Status := "resolved", GroupLabels := ⟨[("job", "api")], by decide⟩,
                   Alerts := [{}] },
    id := "123", token := "abc", query := [(utf8Bytes "pretext", utf8Bytes "hello")] }

/-- The group labels `alertname: DiskFull, job: node, instance: db1`, in the
order in which they are written here. -/
def labelsDiskFull1 : GoMap :=
  ⟨[("alertname", "DiskFull"), ("job", "node"), ("instance", "db1")], by decide⟩

/-- The same group labels in another iteration order. -/
def labelsDiskFull2 : GoMap :=
  ⟨[("job", "node"), ("instance", "db1"), ("alertname", "DiskFull")], by decide⟩

/-- A request carrying a firing batch with one alert and the given group labels. -/
def reqDiskFull (labels : GoMap) : Request :=
  { body := some { Status := "firing", GroupLabels := labels, Alerts := [{}] },
    id := "123", token := "abc", query := [] }

/-- The round-trip request with the query string `pretext=hello&pretext=again`. -/
def reqPretext : Request :=
  { body := some (msgHighCPU "firing"), id := "123", token := "abc",
    query := [(utf8Bytes "other", utf8Bytes "x"), (utf8Bytes "pretext", utf8Bytes "hello"),
      (utf8Bytes "pretext", utf8Bytes "again")] }

/-- The round-trip request with the query string `pretext=%ff`, whose value is
the one byte `0xFF`. -/
def reqBadPretext : Request :=
  { body := some (msgHighCPU "firing"), id := "123", token := "abc",
    query := [(utf8Bytes "pretext", [0xFF])] }

/-- The round-trip request sent to `/%25zz/abc`, whose path parameter `id` is the
text `%zz`. -/
def reqBadId : Request :=
  { body := some (msgHighCPU "firing"), id := "%zz", token := "abc", query := [] }

/-- The round-trip request sent to `/123/50%25`, whose path parameter `token` is
the text `50%`. -/
def reqBadToken : Request :=
  { body := some (msgHighCPU "resolved"), id := "123", token := "50%", query := [] }

/-! ## Auxiliary facts -/

theorem inRange_iff (lo hi b : Nat) : inRange lo hi b = true ↔ lo ≤ b ∧ b ≤ hi := by
  simp [inRange]

theorem decodeRune_one (b0 : Nat) (rest : Bytes) (h0 : b0 < 0x80) :
    decodeRune (b0 :: rest) = some (b0, rest) := by
  simp only [decodeRune, h0, if_true]

theorem decodeRune_two (b0 b1 : Nat) (rest : Bytes) (h0 : 0xC2 ≤ b0 ∧ b0 ≤ 0xDF)
    (h1 : 0x80 ≤ b1 ∧ b1 ≤ 0xBF) :
    decodeRune (b0 :: b1 :: rest) = some ((b0 - 0xC0) * 64 + (b1 - 0x80), rest) := by
  have n1 : ¬ b0 < 0x80 := by omega
  simp only [decodeRune, n1, if_false, (inRange_iff _ _ _).mpr h0, (inRange_iff _ _ _).mpr h1,
    if_true]

theorem decodeRune_three (b0 b1 b2 : Nat) (rest : Bytes) (h0 : 0xE0 ≤ b0 ∧ b0 ≤ 0xEF)
    (h1 : (if b0 = 0xE0 then 0xA0 else 0x80) ≤ b1 ∧ b1 ≤ (if b0 = 0xED then 0x9F else 0xBF))
    (h2 : 0x80 ≤ b2 ∧ b2 ≤ 0xBF) :
    decodeRune (b0 :: b1 :: b2 :: rest)
      = some ((b0 - 0xE0) * 4096 + (b1 - 0x80) * 64 + (b2 - 0x80), rest) := by
  have n1 : ¬ b0 < 0x80 := by omega
  have n2 : inRange 0xC2 0xDF b0 = false := by
    rw [← Bool.not_eq_true, inRange_iff]; omega
  simp only [decodeRune, n1, n2, if_false, (inRange_iff _ _ _).mpr h0,
    (inRange_iff _ _ _).mpr h1, (inRange_iff _ _ _).mpr h2, Bool.and_self, if_true,
    Bool.false_eq_true]

theorem decodeRune_four (b0 b1 b2 b3 : Nat) (rest : Bytes) (h0 : 0xF0 ≤ b0 ∧ b0 ≤ 0xF4)
    (h1 : (if b0 = 0xF0 then 0x90 else 0x80) ≤ b1 ∧ b1 ≤ (if b0 = 0xF4 then 0x8F else 0xBF))
    (h2 : 0x80 ≤ b2 ∧ b2 ≤ 0xBF) (h3 : 0x80 ≤ b3 ∧ b3 ≤ 0xBF) :
    decodeRune (b0 :: b1 :: b2 :: b3 :: rest)
      = some ((b0 - 0xF0) * 262144 + (b1 - 0x80) * 4096 + (b2 - 0x80) * 64 + (b3 - 0x80),
          rest) := by
  have n1 : ¬ b0 < 0x80 := by omega
  have n2 : inRange 0xC2 0xDF b0 = false := by
    rw [← Bool.not_eq_true, inRange_iff]; omega
  have n3 : inRange 0xE0 0xEF b0 = false := by
    rw [← Bool.not_eq_true, inRange_iff]; omega
  simp only [decodeRune, n1, n2, n3, if_false, (inRange_iff _ _ _).mpr h0,
    (inRange_iff _ _ _).mpr h1, (inRange_iff _ _ _).mpr h2, (inRange_iff _ _ _).mpr h3,
    Bool.and_self, if_true, Bool.false_eq_true]

theorem decodeRune_encode (c : Char) (rest : Bytes) :
    decodeRune (utf8EncodeChar c.toNat ++ rest) = some (c.toNat, rest) := by
  have hv : c.toNat < 55296 ∨ (57343 < c.toNat ∧ c.toNat < 1114112) := c.valid
  generalize c.toNat = n at hv
  unfold utf8EncodeChar
  by_cases h1 : n < 0x80
  · rw [if_pos h1]
    exact decodeRune_one n rest h1
  · rw [if_neg h1]
    by_cases h2 : n < 0x800
    · rw [if_pos h2]
      have h := decodeRune_two (0xC0 + n / 64) (0x80 + n % 64) rest (by omega) (by omega)
      have e : (0xC0 + n / 64 - 0xC0) * 64 + (0x80 + n % 64 - 0x80) = n := by omega
      rw [e] at h
      exact h
    · rw [if_neg h2]
      by_cases h3 : n < 0x10000
      · rw [if_pos h3]
        have := decodeRune_three (0xE0 + n / 4096) (0x80 + n / 64 % 64) (0x80 + n % 64) rest
          (by omega) (by split <;> split <;> omega) (by omega)
        have e : (0xE0 + n / 4096 - 0xE0) * 4096 + (0x80 + n / 64 % 64 - 0x80) * 64
            + (0x80 + n % 64 - 0x80) = n := by omega
        rw [e] at this
        exact this
      · rw [if_neg h3]
        have := decodeRune_four (0xF0 + n / 262144) (0x80 + n / 4096 % 64) (0x80 + n / 64 % 64)
          (0x80 + n % 64) rest (by omega) (by split <;> split <;> omega) (by omega) (by omega)
        have e : (0xF0 + n / 262144 - 0xF0) * 262144 + (0x80 + n / 4096 % 64 - 0x80) * 4096
            + (0x80 + n / 64 % 64 - 0x80) * 64 + (0x80 + n % 64 - 0x80) = n := by omega
        rw [e] at this
        exact this

theorem utf8EncodeChar_length_pos (n : Nat) : 0 < (utf8EncodeChar n).length := by
  unfold utf8EncodeChar
  split_ifs <;> simp

theorem jsonCharsAux_utf8 (cs : List Char) :
    ∀ fuel, (cs.flatMap (fun c => utf8EncodeChar c.toNat)).length ≤ fuel →
      jsonCharsAux fuel (cs.flatMap (fun c => utf8EncodeChar c.toNat)) = cs := by
  induction cs with
  | nil =>
    intro fuel _
    cases fuel <;> rfl
  | cons c cs ih =>
    intro fuel hfuel
    rw [List.flatMap_cons] at hfuel ⊢
    rw [List.length_append] at hfuel
    have hpos := utf8EncodeChar_length_pos c.toNat
    obtain ⟨f, rfl⟩ : ∃ f, fuel = f + 1 := ⟨fuel - 1, by omega⟩
    have hdec := decodeRune_encode c (cs.flatMap (fun c => utf8EncodeChar c.toNat))
    cases hb : utf8EncodeChar c.toNat ++ cs.flatMap (fun c => utf8EncodeChar c.toNat) with
    | nil =>
      rw [hb] at hdec
      simp [decodeRune] at hdec
    | cons b bs =>
      rw [hb] at hdec
      simp only [jsonCharsAux, hdec]
      rw [ih f (by omega), Char.ofNat_toNat]

/-- On valid UTF-8, `json.Marshal` writes the string itself. -/
theorem jsonText_utf8Bytes (s : String) : jsonText (utf8Bytes s) = s := by
  unfold jsonText utf8Bytes
  rw [jsonCharsAux_utf8 s.data _ (le_refl _)]

theorem lexLt_irrefl (a : List Nat) : lexLt a a = false := by
  induction a with
  | nil => rfl
  | cons x xs ih => simp [lexLt, ih]

theorem lexLt_asymm : ∀ (a b : List Nat), lexLt a b = true → lexLt b a = false
  | _, [], h => by simp [lexLt] at h
  | [], _ :: _, _ => by simp [lexLt]
  | x :: xs, y :: ys, h => by
    simp only [lexLt, Bool.or_eq_true, Bool.and_eq_true, decide_eq_true_eq] at h
    simp only [lexLt, Bool.or_eq_false_iff, Bool.and_eq_false_imp, decide_eq_false_iff_not,
      decide_eq_true_eq]
    rcases h with h | ⟨h1, h2⟩
    · exact ⟨by omega, fun e => by omega⟩
    · exact ⟨by omega, fun _ => lexLt_asymm xs ys h2⟩

theorem lexLt_trans : ∀ (a b c : List Nat), lexLt a b = true → lexLt b c = true → lexLt a c = true
  | _, _, [], _, h => by simp [lexLt] at h
  | _, [], _ :: _, h, _ => by simp [lexLt] at h
  | [], _ :: _, _ :: _, _, _ => by simp [lexLt]
  | x :: xs, y :: ys, z :: zs, h1, h2 => by
    simp only [lexLt, Bool.or_eq_true, Bool.and_eq_true, decide_eq_true_eq] at h1 h2 ⊢
    rcases h1 with h1 | ⟨e1, h1⟩ <;> rcases h2 with h2 | ⟨e2, h2⟩
    · left; omega
    · left; omega
    · left; omega
    · right; exact ⟨by omega, lexLt_trans xs ys zs h1 h2⟩

theorem lexLt_connex : ∀ (a b : List Nat), lexLt a b = false → lexLt b a = false → a = b
  | [], [], _, _ => rfl
  | [], _ :: _, h, _ => by simp [lexLt] at h
  | _ :: _, [], _, h => by simp [lexLt] at h
  | x :: xs, y :: ys, h1, h2 => by
    simp only [lexLt, Bool.or_eq_false_iff, Bool.and_eq_false_imp, decide_eq_false_iff_not,
      decide_eq_true_eq] at h1 h2
    have e : x = y := by omega
    subst e
    rw [lexLt_connex xs ys (h1.2 rfl) (h2.2 rfl)]

theorem codePoints_injective : Function.Injective codePoints := by
  intro a b h
  have h2 : a.data = b.data :=
    List.map_injective_iff.mpr
      (fun x y hxy => by rw [← Char.ofNat_toNat x, ← Char.ofNat_toNat y, hxy]) h
  exact String.ext h2

theorem stringLe_total (a b : String) : stringLe a b ∨ stringLe b a := by
  unfold stringLe stringLess
  cases h : lexLt (codePoints b) (codePoints a)
  · exact Or.inl rfl
  · exact Or.inr (lexLt_asymm _ _ h)

theorem stringLe_antisymm (a b : String) (h1 : stringLe a b) (h2 : stringLe b a) : a = b :=
  codePoints_injective (lexLt_connex _ _ h2 h1)

theorem stringLe_iff (a b : String) : stringLe a b ↔ a = b ∨ stringLess a b = true := by
  unfold stringLe stringLess
  constructor
  · intro h
    cases h2 : lexLt (codePoints a) (codePoints b)
    · exact Or.inl (codePoints_injective (lexLt_connex _ _ h2 h))
    · exact Or.inr rfl
  · rintro (rfl | h)
    · exact lexLt_irrefl _
    · exact lexLt_asymm _ _ h

theorem stringLe_trans (a b c : String) (h1 : stringLe a b) (h2 : stringLe b c) :
    stringLe a c := by
  rw [stringLe_iff] at *
  rcases h1 with rfl | h1
  · exact h2
  · rcases h2 with rfl | h2
    · exact Or.inr h1
    · exact Or.inr (lexLt_trans _ _ _ h1 h2)

theorem sortStrings_sorted (l : List String) : (sortStrings l).Sorted stringLe := by
  haveI : IsTotal String stringLe := ⟨stringLe_total⟩
  haveI : IsTrans String stringLe := ⟨stringLe_trans⟩
  exact List.sorted_insertionSort stringLe l

theorem sortStrings_perm (l : List String) : (sortStrings l).Perm l :=
  List.perm_insertionSort stringLe l

theorem sortStrings_unique (l ks : List String) (hp : l.Perm ks) (hs : ks.Sorted stringLe) :
    sortStrings l = ks := by
  haveI : IsAntisymm String stringLe := ⟨stringLe_antisymm⟩
  exact List.eq_of_perm_of_sorted ((sortStrings_perm l).trans hp) (sortStrings_sorted l) hs

theorem collectLabels_eq (m : GoMap) :
    collectLabels m = m.keys.filter (fun k => k != "alertname") := by
  have key : ∀ (l : List (String × String)) (init : List String),
      l.foldl (fun labels kv => if kv.1 != "alertname" then labels ++ [kv.1] else labels) init
        = init ++ (l.map Prod.fst).filter (fun k => k != "alertname") := by
    intro l
    induction l with
    | nil => intro init; simp
    | cons kv rest ih =>
      intro init
      rw [List.foldl_cons, ih]
      by_cases h : kv.1 = "alertname" <;> simp [h, List.filter_cons]
  simpa [collectLabels, GoMap.keys] using key m.entries []

theorem collectDescs_eq (alerts : List Alert) :
    collectDescs alerts =
      alerts.filterMap (fun al => (al.Annotations.lookup "summary").map (fun s => "- " ++ s)) := by
  have key : ∀ (l : List Alert) (init : List String),
      l.foldl (fun descs alert =>
          match alert.Annotations.lookup "summary" with
          | some summary => descs ++ ["- " ++ summary]
          | none => descs) init
        = init ++ l.filterMap
            (fun al => (al.Annotations.lookup "summary").map (fun s => "- " ++ s)) := by
    intro l
    induction l with
    | nil => intro init; simp
    | cons al rest ih =>
      intro init
      rw [List.foldl_cons, ih]
      cases h : al.Annotations.lookup "summary" <;> simp [h, List.filterMap_cons]
  simpa [collectDescs] using key alerts []

theorem lookup_of_mem (m : GoMap) (k v : String) (h : (k, v) ∈ m.entries) :
    m.lookup k = some v := by
  obtain ⟨l, nd⟩ := m
  simp only [GoMap.lookup] at *
  induction l with
  | nil => simp at h
  | cons kv rest ih =>
    obtain ⟨k2, v2⟩ := kv
    simp only [List.map_cons, List.nodup_cons, List.mem_map, not_exists, not_and] at nd
    rcases List.mem_cons.mp h with e | hmem
    · cases e; simp [List.lookup]
    · have hne : k ≠ k2 := fun e => nd.1 (k, v) hmem (by simp [e])
      simp only [List.lookup]
      have : (k == k2) = false := by simpa using hne
      rw [this]
      exact ih nd.2 hmem

theorem mem_of_lookup (m : GoMap) (k v : String) (h : m.lookup k = some v) :
    (k, v) ∈ m.entries := by
  obtain ⟨l, nd⟩ := m
  simp only [GoMap.lookup] at *
  clear nd
  induction l with
  | nil => simp at h
  | cons kv rest ih =>
    obtain ⟨k2, v2⟩ := kv
    simp only [List.lookup] at h
    by_cases e : k = k2
    · subst e; simp at h; simp [h]
    · have : (k == k2) = false := by simpa using e
      rw [this] at h
      exact List.mem_cons_of_mem _ (ih h)

theorem collectLabels_nodup (m : GoMap) : (collectLabels m).Nodup := by
  rw [collectLabels_eq]
  exact m.nodupKeys.filter _

theorem mem_collectLabels (m : GoMap) (k : String) :
    k ∈ collectLabels m ↔ k ∈ m.keys ∧ k ≠ "alertname" := by
  rw [collectLabels_eq]
  simp

theorem mem_keys_iff (m : GoMap) (k : String) : k ∈ m.keys ↔ ∃ v, (k, v) ∈ m.entries := by
  simp [GoMap.keys]

theorem index_of_mem (m : GoMap) (kv : String × String) (h : kv ∈ m.entries) :
    m.index kv.1 = kv.2 := by
  simp [GoMap.index, lookup_of_mem m kv.1 kv.2 h]

/-- The sorted labels are the keys of any list of entries that is strictly
ascending by key and holds exactly the entries other than `alertname`. -/
theorem sortedLabels_eq (m : GoMap) (kvs : List (String × String))
    (hsorted : kvs.Pairwise (fun x y => stringLess x.1 y.1 = true))
    (hmem : ∀ kv, kv ∈ kvs ↔ kv ∈ m.entries ∧ kv.1 ≠ "alertname") :
    sortStrings (collectLabels m) = kvs.map Prod.fst := by
  have hstrict : (kvs.map Prod.fst).Pairwise (fun a b => stringLess a b = true) :=
    List.pairwise_map.mpr hsorted
  have hnd : (kvs.map Prod.fst).Nodup := by
    refine hstrict.imp ?_
    intro a b hab e
    subst e
    simp [stringLess, lexLt_irrefl] at hab
  have hle : (kvs.map Prod.fst).Sorted stringLe := by
    refine hstrict.imp ?_
    intro a b hab
    exact (stringLe_iff a b).mpr (Or.inr hab)
  refine sortStrings_unique _ _ ?_ hle
  refine (List.perm_ext_iff_of_nodup (collectLabels_nodup m) hnd).mpr ?_
  intro k
  rw [mem_collectLabels, mem_keys_iff]
  constructor
  · rintro ⟨⟨v, hv⟩, hne⟩
    exact List.mem_map.mpr ⟨(k, v), (hmem (k, v)).mpr ⟨hv, hne⟩, rfl⟩
  · intro hk
    obtain ⟨kv, hkv, rfl⟩ := List.mem_map.mp hk
    exact ⟨⟨kv.2, ((hmem kv).mp hkv).1⟩, ((hmem kv).mp hkv).2⟩

theorem renderLabels_eq (m : GoMap) (kvs : List (String × String))
    (hsorted : kvs.Pairwise (fun x y => stringLess x.1 y.1 = true))
    (hmem : ∀ kv, kv ∈ kvs ↔ kv ∈ m.entries ∧ kv.1 ≠ "alertname") :
    renderLabels m (sortStrings (collectLabels m)) = kvs.map (fun kv => kv.1 ++ " = " ++ kv.2) := by
  rw [sortedLabels_eq m kvs hsorted hmem, renderLabels, List.map_map]
  refine List.map_congr_left ?_
  intro kv hkv
  simp [index_of_mem m kv ((hmem kv).mp hkv).1]

theorem sortedLabels_exist (m : GoMap) :
    ∃ kvs : List (String × String),
      kvs.Pairwise (fun x y => stringLess x.1 y.1 = true) ∧
      ∀ kv, kv ∈ kvs ↔ kv ∈ m.entries ∧ kv.1 ≠ "alertname" := by
  refine ⟨(sortStrings (collectLabels m)).map (fun k => (k, m.index k)), ?_, ?_⟩
  · rw [List.pairwise_map]
    have hnd : (sortStrings (collectLabels m)).Nodup :=
      (sortStrings_perm _).nodup_iff.mpr (collectLabels_nodup m)
    refine ((sortStrings_sorted (collectLabels m)).and hnd).imp ?_
    rintro a b ⟨hle, hne⟩
    rcases (stringLe_iff a b).mp hle with e | h
    · exact absurd e hne
    · exact h
  · intro kv
    rw [List.mem_map]
    constructor
    · rintro ⟨k, hk, rfl⟩
      have hk2 := (mem_collectLabels m k).mp ((sortStrings_perm _).mem_iff.mp hk)
      obtain ⟨v, hv⟩ := (mem_keys_iff m k).mp hk2.1
      have : m.index k = v := index_of_mem m (k, v) hv
      exact ⟨by rw [this]; exact hv, hk2.2⟩
    · rintro ⟨hkv, hne⟩
      refine ⟨kv.1, ?_, ?_⟩
      · exact (sortStrings_perm _).mem_iff.mpr
          ((mem_collectLabels m kv.1).mpr ⟨(mem_keys_iff m kv.1).mpr ⟨kv.2, hkv⟩, hne⟩)
      · rw [index_of_mem m kv hkv]

theorem lookup_perm (m1 m2 : GoMap) (hperm : m1.entries.Perm m2.entries) (k : String) :
    m1.lookup k = m2.lookup k := by
  cases h1 : m1.lookup k with
  | some v =>
    exact (lookup_of_mem m2 k v (hperm.mem_iff.mp (mem_of_lookup m1 k v h1))).symm
  | none =>
    cases h2 : m2.lookup k with
    | none => rfl
    | some v =>
      have := lookup_of_mem m1 k v (hperm.mem_iff.mpr (mem_of_lookup m2 k v h2))
      rw [h1] at this
      cases this

theorem renderedLabels_perm (m1 m2 : GoMap) (hperm : m1.entries.Perm m2.entries) :
    renderLabels m1 (sortStrings (collectLabels m1))
      = renderLabels m2 (sortStrings (collectLabels m2)) := by
  have hl : (collectLabels m1).Perm (collectLabels m2) := by
    rw [collectLabels_eq, collectLabels_eq]
    exact (hperm.map Prod.fst).filter _
  have hs : sortStrings (collectLabels m1) = sortStrings (collectLabels m2) :=
    sortStrings_unique _ _ (hl.trans (sortStrings_perm _).symm) (sortStrings_sorted _)
  rw [hs]
  simp only [renderLabels, GoMap.index, lookup_perm m1 m2 hperm]

/-- The payload the handler builds for a request that decodes and validates. -/
theorem handleWebhook_payload (lib : Lib) (r : Request) (msg : AlertMessage) (alertname : String)
    (hbody : r.body = some msg) (hname : msg.GroupLabels.lookup "alertname" = some alertname) :
    (handleWebhook lib r).payload = some
      { Content := r.queryGet (utf8Bytes "pretext"),
        Embeds := [{
          Title := buildTitle lib msg alertname
            (renderLabels msg.GroupLabels (sortStrings (collectLabels msg.GroupLabels))),
          Description := stringsJoin (collectDescs msg.Alerts) "\n",
          Color := pickColor msg.Status }] } := by
  simp only [handleWebhook, hbody, hname, jsonMarshal]
  split
  · split <;> rfl
  · rfl

/-! ## The claims -/

/-- C1. For a request whose batch has the group label `alertname`, the handler
builds exactly one embed, and its title is
`[<upper status>:<number of alerts>] <alertname> (<labels>)`, where `<labels>` is
the `", "`-join of `key = value` over the list of the entries of `groupLabels`
other than `alertname`, each once, in strictly ascending order of the keys.  Such
a list exists, and when there is no other key the title ends in `()`. -/
theorem title_format (lib : Lib) (r : Request) (msg : AlertMessage) (alertname : String)
    (hbody : r.body = some msg)
    (hname : msg.GroupLabels.lookup "alertname" = some alertname) :
    ∃ embed : RichEmbed,
      (handleWebhook lib r).payload.map DiscordWebhook.Embeds = some [embed] ∧
      (∃ kvs : List (String × String),
        kvs.Pairwise (fun x y => stringLess x.1 y.1 = true) ∧
        ∀ kv, kv ∈ kvs ↔ kv ∈ msg.GroupLabels.entries ∧ kv.1 ≠ "alertname") ∧
      (∀ kvs : List (String × String),
        kvs.Pairwise (fun x y => stringLess x.1 y.1 = true) →
        (∀ kv, kv ∈ kvs ↔ kv ∈ msg.GroupLabels.entries ∧ kv.1 ≠ "alertname") →
        embed.Title =
          "[" ++ lib.ToUpper msg.Status ++ ":" ++ toString msg.Alerts.length ++ "] " ++ alertname
            ++ " (" ++ ", ".intercalate (kvs.map (fun kv => kv.1 ++ " = " ++ kv.2)) ++ ")") ∧
      ((∀ k ∈ msg.GroupLabels.keys, k = "alertname") →
        embed.Title =
          "[" ++ lib.ToUpper msg.Status ++ ":" ++ toString msg.Alerts.length ++ "] " ++ alertname
            ++ " ()") := by
  refine ⟨_, by rw [handleWebhook_payload lib r msg alertname hbody hname]; rfl,
    sortedLabels_exist msg.GroupLabels, ?_, ?_⟩
  · intro kvs hsorted hmem
    simp only [buildTitle, stringsJoin, renderLabels_eq msg.GroupLabels kvs hsorted hmem]
  · intro honly
    have h := renderLabels_eq msg.GroupLabels [] List.Pairwise.nil (by
      intro kv
      simp only [List.not_mem_nil, false_iff, not_and, not_not]
      intro hkv
      exact honly kv.1 ((mem_keys_iff _ _).mpr ⟨kv.2, hkv⟩))
    simp only [buildTitle, stringsJoin, h, List.map_nil, String.intercalate]
    rw [String.append_assoc _ " (" "", String.append_assoc _ (" (" ++ "") ")"]
    rfl

/-- C1, witness: status `firing`, labels `alertname: HighCPU, job: api` and two
alerts give the title `[FIRING:2] HighCPU (job = api)`. -/
theorem title_format_witness :
    (reqHighCPU "firing").body = some (msgHighCPU "firing") ∧
    (msgHighCPU "firing").GroupLabels.lookup "alertname" = some "HighCPU" ∧
    ∃ embed : RichEmbed,
      (handleWebhook (goLib (some 204)) (reqHighCPU "firing")).payload.map DiscordWebhook.Embeds
        = some [embed] ∧
      embed.Title = "[FIRING:2] HighCPU (job = api)" := by
  refine ⟨rfl, by decide, ?_⟩
  obtain ⟨embed, hp, _, htitle, _⟩ :=
    title_format (goLib (some 204)) (reqHighCPU "firing") (msgHighCPU "firing") "HighCPU" rfl
      (by decide)
  refine ⟨embed, hp, ?_⟩
  have hmem : ∀ kv : String × String, kv ∈ [("job", "api")] ↔
      kv ∈ (msgHighCPU "firing").GroupLabels.entries ∧ kv.1 ≠ "alertname" := by
    rintro ⟨k, v⟩
    simp only [msgHighCPU, labelsHighCPU, List.mem_cons, List.mem_singleton, Prod.mk.injEq,
      List.not_mem_nil, or_false]
    constructor
    · rintro ⟨rfl, rfl⟩
      exact ⟨Or.inr ⟨rfl, rfl⟩, by decide⟩
    · rintro ⟨⟨h, _⟩ | h, hne⟩
      · exact absurd h hne
      · exact h
  rw [htitle [("job", "api")] (by simp) hmem]
  decide

/-- C2. Code evaluated at a request that decodes, validates and is dispatched,
with a downstream answer of 429: the handler hands one call to `ctxhttp.Do`,
stores 429 in the request context with `render.Status`, never calls
`w.WriteHeader`, and the caller receives 200 rather than 429. -/
theorem downstream_status_not_relayed :
    (reqHighCPU "firing").body = some (msgHighCPU "firing") ∧
    (msgHighCPU "firing").GroupLabels.lookup "alertname" = some "HighCPU" ∧
    (handleWebhook (goLib (some 429)) (reqHighCPU "firing")).calls.length = 1 ∧
    (handleWebhook (goLib (some 429)) (reqHighCPU "firing")).panicked = false ∧
    (handleWebhook (goLib (some 429)) (reqHighCPU "firing")).ctxStatus = some 429 ∧
    (handleWebhook (goLib (some 429)) (reqHighCPU "firing")).wroteHeader = none ∧
    (handleWebhook (goLib (some 429)) (reqHighCPU "firing")).callerStatus = 200 := by
  refine ⟨rfl, ?_, ?_, ?_, ?_, ?_, ?_⟩ <;> decide

/-- C3. A request whose body does not decode, or whose batch has no group label
`alertname`, gets `w.WriteHeader(400)`: the caller receives 400, no payload is
built, no outbound call is made, and the handler neither panics nor stores a
downstream status. -/
theorem invalid_request_400 (lib : Lib) (r : Request)
    (h : r.body = none ∨
      ∃ msg, r.body = some msg ∧ msg.GroupLabels.lookup "alertname" = none) :
    (handleWebhook lib r).wroteHeader = some 400 ∧
    (handleWebhook lib r).callerStatus = 400 ∧
    (handleWebhook lib r).wroteBody = "" ∧
    (handleWebhook lib r).payload = none ∧
    (handleWebhook lib r).calls = [] ∧
    (handleWebhook lib r).ctxStatus = none ∧
    (handleWebhook lib r).panicked = false := by
  rcases h with h | ⟨msg, hbody, hname⟩
  · simp [handleWebhook, h, Trace.callerStatus]
  · simp [handleWebhook, hbody, hname, Trace.callerStatus]

/-- C3, witness: a body that is not JSON, and a batch with the only group label
`job`, both get 400 and no outbound call. -/
theorem invalid_request_400_witness :
    (reqNotJson.body = none ∧
      (handleWebhook (goLib (some 204)) reqNotJson).wroteHeader = some 400 ∧
      (handleWebhook (goLib (some 204)) reqNotJson).calls = []) ∧
    ((∃ msg, reqNoAlertname.body = some msg ∧ msg.GroupLabels.lookup "alertname" = none) ∧
      (handleWebhook (goLib (some 204)) reqNoAlertname).wroteHeader = some 400 ∧
      (handleWebhook (goLib (some 204)) reqNoAlertname).calls = []) := by
  have h1 : reqNotJson.body = none := rfl
  have h2 : ∃ msg, reqNoAlertname.body = some msg ∧ msg.GroupLabels.lookup "alertname" = none :=
    ⟨_, rfl, by decide⟩
  have t1 := invalid_request_400 (goLib (some 204)) reqNotJson (Or.inl h1)
  have t2 := invalid_request_400 (goLib (some 204)) reqNoAlertname (Or.inr h2)
  exact ⟨⟨h1, t1.1, t1.2.2.2.2.1⟩, ⟨h2, t2.1, t2.2.2.2.2.1⟩⟩

/-- C4. For a request whose body decodes: when the batch has the group label
`alertname`, the handler builds exactly one embed and its description is the
newline-join of `"- " ++ summary` over the alerts that have a `summary`
annotation, in the order of `alerts`; it is empty when no alert has one.  When
the batch has no `alertname`, no embed is built. -/
theorem description_format (lib : Lib) (r : Request) (msg : AlertMessage)
    (hbody : r.body = some msg) :
    (∀ alertname, msg.GroupLabels.lookup "alertname" = some alertname →
      ∃ embed : RichEmbed,
        (handleWebhook lib r).payload.map DiscordWebhook.Embeds = some [embed] ∧
        embed.Description =
          "\n".intercalate (msg.Alerts.filterMap
            (fun al => (al.Annotations.lookup "summary").map (fun s => "- " ++ s))) ∧
        ((∀ al ∈ msg.Alerts, al.Annotations.lookup "summary" = none) →
          embed.Description = "")) ∧
    (msg.GroupLabels.lookup "alertname" = none → (handleWebhook lib r).payload = none) := by
  constructor
  · intro alertname hname
    refine ⟨_, by rw [handleWebhook_payload lib r msg alertname hbody hname]; rfl, ?_, ?_⟩
    · simp only [stringsJoin, collectDescs_eq]
    · intro hnone
      have : msg.Alerts.filterMap
          (fun al => (al.Annotations.lookup "summary").map (fun s => "- " ++ s)) = [] := by
        rw [List.filterMap_eq_nil_iff]
        intro al hal
        simp [hnone al hal]
      simp only [stringsJoin, collectDescs_eq, this]
      rfl
  · intro hname
    simp [handleWebhook, hbody, hname]

/-- C4, witness: alerts `[{summary: "cpu at 95%"}, {}]` give `- cpu at 95%`. -/
theorem description_format_witness :
    (reqHighCPU "firing").body = some (msgHighCPU "firing") ∧
    ∃ embed : RichEmbed,
      (handleWebhook (goLib (some 204)) (reqHighCPU "firing")).payload.map DiscordWebhook.Embeds
        = some [embed] ∧
      embed.Description = "- cpu at 95%" := by
  refine ⟨rfl, ?_⟩
  obtain ⟨embed, hp, hd, _⟩ :=
    (description_format (goLib (some 204)) (reqHighCPU "firing") (msgHighCPU "firing") rfl).1
      "HighCPU" (by decide)
  refine ⟨embed, hp, ?_⟩
  rw [hd]
  decide

/-- C5. For a request that decodes and validates, whatever the status string,
the color of the embed is `0x00FF00` exactly when the status is the string
`resolved`, and `0xFF0000` for every other status; there is no third color. -/
theorem color_of_status (lib : Lib) (r : Request) (msg : AlertMessage) (alertname : String)
    (hbody : r.body = some msg)
    (hname : msg.GroupLabels.lookup "alertname" = some alertname) :
    ∃ embed : RichEmbed,
      (handleWebhook lib r).payload.map DiscordWebhook.Embeds = some [embed] ∧
      (embed.Color = 0x00FF00 ↔ msg.Status = "resolved") ∧
      (msg.Status ≠ "resolved" → embed.Color = 0xFF0000) ∧
      (embed.Color = 0x00FF00 ∨ embed.Color = 0xFF0000) := by
  refine ⟨_, by rw [handleWebhook_payload lib r msg alertname hbody hname]; rfl, ?_, ?_, ?_⟩
  · by_cases h : msg.Status = "resolved" <;> simp [pickColor, h]
  · intro h; simp [pickColor, h]
  · by_cases h : msg.Status = "resolved" <;> simp [pickColor, h]

/-- C5, witness: the status `Resolved`, which differs from `resolved` by case,
gets the alert color `0xFF0000`. -/
theorem color_of_status_witness :
    (reqHighCPU "Resolved").body = some (msgHighCPU "Resolved") ∧
    (msgHighCPU "Resolved").GroupLabels.lookup "alertname" = some "HighCPU" ∧
    ∃ embed : RichEmbed,
      (handleWebhook (goLib (some 204)) (reqHighCPU "Resolved")).payload.map DiscordWebhook.Embeds
        = some [embed] ∧
      embed.Color = 0xFF0000 := by
  refine ⟨rfl, by decide, ?_⟩
  obtain ⟨embed, hp, _, hc, _⟩ :=
    color_of_status (goLib (some 204)) (reqHighCPU "Resolved") (msgHighCPU "Resolved") "HighCPU"
      rfl (by decide)
  exact ⟨embed, hp, hc (by decide)⟩

/-- C6. Two requests whose batches have equal status, equal alerts and group
labels holding the same entries in any two iteration orders give the same list
of embed titles (no title at all when `alertname` is missing, one title when it
is present). -/
theorem title_order_independent (lib : Lib) (r1 r2 : Request) (msg1 msg2 : AlertMessage)
    (hbody1 : r1.body = some msg1) (hbody2 : r2.body = some msg2)
    (hstatus : msg1.Status = msg2.Status) (halerts : msg1.Alerts = msg2.Alerts)
    (hperm : msg1.GroupLabels.entries.Perm msg2.GroupLabels.entries) :
    (handleWebhook lib r1).payload.map (fun p => p.Embeds.map RichEmbed.Title)
      = (handleWebhook lib r2).payload.map (fun p => p.Embeds.map RichEmbed.Title) ∧
    (∀ alertname, msg1.GroupLabels.lookup "alertname" = some alertname →
      ∃ title, (handleWebhook lib r1).payload.map (fun p => p.Embeds.map RichEmbed.Title)
        = some [title]) := by
  have hlk := lookup_perm msg1.GroupLabels msg2.GroupLabels hperm "alertname"
  constructor
  · cases hname : msg1.GroupLabels.lookup "alertname" with
    | none =>
      have hname2 : msg2.GroupLabels.lookup "alertname" = none := by rw [← hlk, hname]
      simp [handleWebhook, hbody1, hbody2, hname, hname2]
    | some alertname =>
      have hname2 : msg2.GroupLabels.lookup "alertname" = some alertname := by rw [← hlk, hname]
      rw [handleWebhook_payload lib r1 msg1 alertname hbody1 hname,
        handleWebhook_payload lib r2 msg2 alertname hbody2 hname2]
      simp only [Option.map_some', List.map_cons, List.map_nil, buildTitle,
        renderedLabels_perm msg1.GroupLabels msg2.GroupLabels hperm, hstatus, halerts]
  · intro alertname hname
    rw [handleWebhook_payload lib r1 msg1 alertname hbody1 hname]
    exact ⟨_, rfl⟩

/-- C6, witness: the labels `alertname, job, instance` visited in two different
orders give the same title, `[FIRING:1] DiskFull (instance = db1, job = node)`. -/
theorem title_order_independent_witness :
    (reqDiskFull labelsDiskFull1).body
      = some { Status := "firing", GroupLabels := labelsDiskFull1, Alerts := [{}] } ∧
    (reqDiskFull labelsDiskFull2).body
      = some { Status := "firing", GroupLabels := labelsDiskFull2, Alerts := [{}] } ∧
    labelsDiskFull1.entries.Perm labelsDiskFull2.entries ∧
    (handleWebhook (goLib (some 204)) (reqDiskFull labelsDiskFull1)).payload.map
        (fun p => p.Embeds.map RichEmbed.Title)
      = (handleWebhook (goLib (some 204)) (reqDiskFull labelsDiskFull2)).payload.map
        (fun p => p.Embeds.map RichEmbed.Title) ∧
    (handleWebhook (goLib (some 204)) (reqDiskFull labelsDiskFull2)).payload.map
        (fun p => p.Embeds.map RichEmbed.Title)
      = some ["[FIRING:1] DiskFull (instance = db1, job = node)"] := by
  have hperm : labelsDiskFull1.entries.Perm labelsDiskFull2.entries := by
    decide
  exact ⟨rfl, rfl, hperm,
    (title_order_independent (goLib (some 204)) (reqDiskFull labelsDiskFull1)
      (reqDiskFull labelsDiskFull2) _ _ rfl rfl rfl rfl hperm).1, by decide⟩

/-- C7, as stated, fails at the request `POST /123/abc?pretext=%ff`: the body
decodes and validates and the value of `pretext` is the one byte `0xFF`, which
the handler copies into `Content`; in the encoded payload, which is the body of
the one outbound call, the member `content` is the text U+FFFD, whose bytes
`EF BF BD` are not the value. -/
theorem content_is_pretext_counterexample :
    reqBadPretext.body = some (msgHighCPU "firing") ∧
    (msgHighCPU "firing").GroupLabels.lookup "alertname" = some "HighCPU" ∧
    reqBadPretext.query.lookup (utf8Bytes "pretext") = some [0xFF] ∧
    ∃ (p : DiscordWebhook) (j : Json),
      (handleWebhook (goLib (some 204)) reqBadPretext).payload = some p ∧
      p.Content = [0xFF] ∧
      jsonMarshal p = .ok j ∧
      (handleWebhook (goLib (some 204)) reqBadPretext).calls.map OutboundCall.body = [j] ∧
      j.member "content" = some (.str ⟨[Char.ofNat 0xFFFD]⟩) ∧
      utf8Bytes ⟨[Char.ofNat 0xFFFD]⟩ = [0xEF, 0xBF, 0xBD] ∧
      utf8Bytes ⟨[Char.ofNat 0xFFFD]⟩ ≠ [0xFF] := by
  refine ⟨rfl, by decide, by decide, _, _,
    handleWebhook_payload (goLib (some 204)) reqBadPretext (msgHighCPU "firing") "HighCPU" rfl
      (by decide), by decide, rfl, rfl, rfl, by decide, by decide⟩

/-- C7, amended. For a request that decodes and validates, the `Content` of the
payload is the (first) value of the query parameter `pretext` when the query has
one and the empty string when it has none; the payload has exactly one embed; its
encoding is an object whose member `content` is always a string, namely
`Content` coerced to valid UTF-8: it is the value itself whenever the value is
valid UTF-8, and the empty text when the parameter is absent; the member `embeds`
is an array of one element; and any other valid request with the same query
string, whatever its batch, path parameters and library, gets the same
`Content`. -/
theorem content_is_pretext (lib : Lib) (r : Request) (msg : AlertMessage) (alertname : String)
    (hbody : r.body = some msg)
    (hname : msg.GroupLabels.lookup "alertname" = some alertname) :
    ∃ (p : DiscordWebhook) (j : Json),
      (handleWebhook lib r).payload = some p ∧
      (∀ v, r.query.lookup (utf8Bytes "pretext") = some v → p.Content = v) ∧
      (r.query.lookup (utf8Bytes "pretext") = none → p.Content = []) ∧
      p.Embeds.length = 1 ∧
      jsonMarshal p = .ok j ∧
      j.member "content" = some (.str (jsonText p.Content)) ∧
      (∀ s : String, r.query.lookup (utf8Bytes "pretext") = some (utf8Bytes s) →
        j.member "content" = some (.str s)) ∧
      (r.query.lookup (utf8Bytes "pretext") = none → j.member "content" = some (.str "")) ∧
      (∃ e, j.member "embeds" = some (.arr [e])) ∧
      (∀ (lib2 : Lib) (r2 : Request) (msg2 : AlertMessage) (alertname2 : String),
        r2.body = some msg2 → msg2.GroupLabels.lookup "alertname" = some alertname2 →
        r2.query = r.query →
        (handleWebhook lib2 r2).payload.map DiscordWebhook.Content = some p.Content) := by
  refine ⟨_, _, handleWebhook_payload lib r msg alertname hbody hname, ?_, ?_, rfl, rfl, rfl,
    ?_, ?_, ⟨_, rfl⟩, ?_⟩
  · intro v hv
    simp [Request.queryGet, hv]
  · intro hv
    simp [Request.queryGet, hv]
  · intro s hs
    show some (Json.str (jsonText (r.queryGet (utf8Bytes "pretext")))) = some (Json.str s)
    rw [Request.queryGet, hs, Option.getD_some, jsonText_utf8Bytes]
  · intro hv
    show some (Json.str (jsonText (r.queryGet (utf8Bytes "pretext")))) = some (Json.str "")
    rw [Request.queryGet, hv]
    rfl
  · intro lib2 r2 msg2 alertname2 hbody2 hname2 hq
    rw [handleWebhook_payload lib2 r2 msg2 alertname2 hbody2 hname2]
    simp [Request.queryGet, hq]

/-- C7, witness: with the query `other=x&pretext=hello&pretext=again` the member
`content` of the encoded payload is `hello`; with no query string it is the
empty text. -/
theorem content_is_pretext_witness :
    (reqPretext.body = some (msgHighCPU "firing") ∧
      (msgHighCPU "firing").GroupLabels.lookup "alertname" = some "HighCPU" ∧
      reqPretext.query.lookup (utf8Bytes "pretext") = some (utf8Bytes "hello") ∧
      ∃ (p : DiscordWebhook) (j : Json),
        (handleWebhook (goLib (some 204)) reqPretext).payload = some p ∧
        p.Content = utf8Bytes "hello" ∧
        jsonMarshal p = .ok j ∧ j.member "content" = some (.str "hello")) ∧
    ((reqHighCPU "firing").query.lookup (utf8Bytes "pretext") = none ∧
      ∃ (p : DiscordWebhook) (j : Json),
        (handleWebhook (goLib (some 204)) (reqHighCPU "firing")).payload = some p ∧
        p.Content = [] ∧
        jsonMarshal p = .ok j ∧ j.member "content" = some (.str "")) := by
  have hname : (msgHighCPU "firing").GroupLabels.lookup "alertname" = some "HighCPU" := by decide
  have hq1 : reqPretext.query.lookup (utf8Bytes "pretext") = some (utf8Bytes "hello") := by
    decide
  have hq2 : (reqHighCPU "firing").query.lookup (utf8Bytes "pretext") = none := rfl
  obtain ⟨p, j, hp, hsome, _, _, hj, _, hvalid, _, _, _⟩ :=
    content_is_pretext (goLib (some 204)) reqPretext (msgHighCPU "firing") "HighCPU" rfl hname
  obtain ⟨q, k, hq, _, hnone, _, hk, _, _, habsent, _, _⟩ :=
    content_is_pretext (goLib (some 204)) (reqHighCPU "firing") (msgHighCPU "firing") "HighCPU"
      rfl hname
  exact ⟨⟨rfl, hname, hq1, p, j, hp, hsome _ hq1, hj, hvalid "hello" hq1⟩,
    ⟨hq2, q, k, hq, hnone hq2, hk, habsent hq2⟩⟩

/-- C8, as stated, fails at the request `POST /%25zz/abc`: the body decodes and
validates, `http.NewRequest` rejects the URL built from the path parameter `%zz`,
and the handler makes no outbound call. -/
theorem one_outbound_call_counterexample :
    reqBadId.body = some (msgHighCPU "firing") ∧
    (msgHighCPU "firing").GroupLabels.lookup "alertname" = some "HighCPU" ∧
    webhookURL reqBadId.id reqBadId.token = "https://discordapp.com/api/webhooks/%zz/abc" ∧
    (goLib (some 204)).NewRequest (webhookURL reqBadId.id reqBadId.token) = false ∧
    (handleWebhook (goLib (some 204)) reqBadId).calls.length = 0 := by
  refine ⟨rfl, ?_, ?_, ?_, ?_⟩ <;> decide

/-- C8, amended. For a request that decodes and validates and whose destination
URL `http.NewRequest` accepts, the handler makes exactly one outbound call: a
`POST` to `"https://discordapp.com/api/webhooks/" ++ id ++ "/" ++ token`, the
path parameters taken as they are, with the single header
`Content-Type: application/json` and the encoding of the payload as body. -/
theorem one_outbound_call (lib : Lib) (r : Request) (msg : AlertMessage) (alertname : String)
    (hbody : r.body = some msg)
    (hname : msg.GroupLabels.lookup "alertname" = some alertname)
    (hnew : lib.NewRequest (webhookURL r.id r.token) = true) :
    ∃ (p : DiscordWebhook) (j : Json),
      (handleWebhook lib r).payload = some p ∧
      jsonMarshal p = .ok j ∧
      (handleWebhook lib r).calls =
        [{ method := "POST",
           url := "https://discordapp.com/api/webhooks/" ++ r.id ++ "/" ++ r.token,
           header := [("Content-Type", "application/json")],
           body := j }] := by
  refine ⟨_, _, handleWebhook_payload lib r msg alertname hbody hname, rfl, ?_⟩
  simp only [handleWebhook, hbody, hname, jsonMarshal, hnew, if_true]
  split <;> rfl

/-- C8, witness: `POST /123/abc` with the round-trip batch makes one call, to
`https://discordapp.com/api/webhooks/123/abc`. -/
theorem one_outbound_call_witness :
    (reqHighCPU "firing").body = some (msgHighCPU "firing") ∧
    (msgHighCPU "firing").GroupLabels.lookup "alertname" = some "HighCPU" ∧
    (goLib (some 204)).NewRequest (webhookURL "123" "abc") = true ∧
    (handleWebhook (goLib (some 204)) (reqHighCPU "firing")).calls.map
      (fun c => (c.method, c.url, c.header))
      = [("POST", "https://discordapp.com/api/webhooks/123/abc",
          [("Content-Type", "application/json")])] := by
  have hname : (msgHighCPU "firing").GroupLabels.lookup "alertname" = some "HighCPU" := by decide
  have hnew : (goLib (some 204)).NewRequest (webhookURL "123" "abc") = true := by decide
  obtain ⟨p, j, _, _, hcalls⟩ :=
    one_outbound_call (goLib (some 204)) (reqHighCPU "firing") (msgHighCPU "firing") "HighCPU"
      rfl hname hnew
  refine ⟨rfl, hname, hnew, ?_⟩
  rw [hcalls]
  rfl

/-- C9. When the handler hands a call to `ctxhttp.Do` and that call returns an
error, the handler calls `w.WriteHeader(500)` and writes no body, so the caller
receives 500; the failed call is the only one, no downstream status is stored,
and the handler does not panic. -/
theorem dispatch_failure_500 (lib : Lib) (r : Request) (c : OutboundCall)
    (hdispatched : c ∈ (handleWebhook lib r).calls)
    (hfail : lib.Do c = none) :
    (∃ msg alertname, r.body = some msg ∧
      msg.GroupLabels.lookup "alertname" = some alertname) ∧
    (handleWebhook lib r).wroteHeader = some 500 ∧
    (handleWebhook lib r).wroteBody = "" ∧
    (handleWebhook lib r).callerStatus = 500 ∧
    (handleWebhook lib r).calls = [c] ∧
    (handleWebhook lib r).ctxStatus = none ∧
    (handleWebhook lib r).panicked = false := by
  unfold handleWebhook at hdispatched ⊢
  cases hbody : r.body with
  | none => simp [hbody] at hdispatched
  | some msg =>
    cases hname : msg.GroupLabels.lookup "alertname" with
    | none => simp [hbody, hname] at hdispatched
    | some alertname =>
      simp only [hbody, hname, jsonMarshal] at hdispatched ⊢
      refine ⟨⟨msg, alertname, rfl, hname⟩, ?_⟩
      split at hdispatched
      · rename_i hnew
        simp only [hnew, if_true]
        split at hdispatched
        · rename_i hdo
          simp only [List.mem_singleton] at hdispatched
          subst hdispatched
          simp [hdo, Trace.callerStatus]
        · rename_i code hdo
          simp only [List.mem_singleton] at hdispatched
          subst hdispatched
          rw [hfail] at hdo
          cases hdo
      · simp at hdispatched

/-- C9, witness: the round-trip request with a transport that fails.  The one
call the handler dispatches fails, and the handler answers 500. -/
theorem dispatch_failure_500_witness :
    ∃ c : OutboundCall,
      c ∈ (handleWebhook (goLib none) (reqHighCPU "firing")).calls ∧
      (goLib none).Do c = none ∧
      c.url = "https://discordapp.com/api/webhooks/123/abc" ∧
      (handleWebhook (goLib none) (reqHighCPU "firing")).wroteHeader = some 500 ∧
      (handleWebhook (goLib none) (reqHighCPU "firing")).callerStatus = 500 ∧
      (handleWebhook (goLib none) (reqHighCPU "firing")).calls = [c] := by
  obtain ⟨c, hc⟩ : ∃ c, (handleWebhook (goLib none) (reqHighCPU "firing")).calls = [c] :=
    ⟨_, rfl⟩
  have hmem : c ∈ (handleWebhook (goLib none) (reqHighCPU "firing")).calls := by
    rw [hc]; exact List.mem_singleton.mpr rfl
  have hurl : c.url = "https://discordapp.com/api/webhooks/123/abc" := by
    have h : (handleWebhook (goLib none) (reqHighCPU "firing")).calls.map OutboundCall.url
        = ["https://discordapp.com/api/webhooks/123/abc"] := by decide
    rw [hc] at h
    simpa using h
  have t := dispatch_failure_500 (goLib none) (reqHighCPU "firing") c hmem rfl
  exact ⟨c, hmem, rfl, hurl, t.2.1, t.2.2.2.1, t.2.2.2.2.1⟩

/-- C10. Code evaluated at the request `POST /123/50%25` with a valid batch:
`http.NewRequest` rejects the URL built from the path parameter `50%`, the
handler does not test that error, dereferences the nil request and panics; it
makes no outbound call and does not call `w.WriteHeader` itself. -/
theorem nil_request_dereferenced :
    reqBadToken.body = some (msgHighCPU "resolved") ∧
    (msgHighCPU "resolved").GroupLabels.lookup "alertname" = some "HighCPU" ∧
    webhookURL reqBadToken.id reqBadToken.token = "https://discordapp.com/api/webhooks/123/50%" ∧
    (goLib (some 204)).NewRequest (webhookURL reqBadToken.id reqBadToken.token) = false ∧
    (handleWebhook (goLib (some 204)) reqBadToken).panicked = true ∧
    (handleWebhook (goLib (some 204)) reqBadToken).wroteHeader = none ∧
    (handleWebhook (goLib (some 204)) reqBadToken).calls.length = 0 := by
  refine ⟨rfl, ?_, ?_, ?_, ?_, ?_, ?_⟩ <;> decide

end DiscordAlertmanager
